import Mathlib

/-!
Verification of the damavand segmentation + feature-extraction core.

The development shallowly embeds the functions of `damavand/utils.py` and
`damavand/signal_processing/feature_extraction.py`:

* numeric 1-D arrays become `List ℝ` (or a generic `List α` where the code is
  element-type agnostic), 2-D tables become `List (List ℝ)` (rows);
* `numpy`/`pandas` reductions (`mean`, `std`, `max`, ...) become the
  corresponding real-valued list functions;
* Python exceptions become `Except`/`Option` results.
-/

namespace Damavand

/-- Python slice `a[i : j]` for indices `0 ≤ i`: the elements at positions
`i, i+1, …, j-1` (empty when `j ≤ i`).  Negative-index wrap-around is not
modelled; every slice taken by the embedded code has `0 ≤ i`. -/
def pySlice {α : Type} (a : List α) (i j : ℤ) : List α :=
  (a.drop i.toNat).take (j - i).toNat

/-- The `while` loop of `splitter` (utils.py): starting at offset `m`, while
`m + win_len ≤ N` record the index pair `[m, m + win_len]` and advance
`m += hop_len`.  The source loop has no termination guard, and indeed never
terminates when `hop_len ≤ 0` (and `win_len ≤ N`); the embedding therefore
carries an explicit fuel bound on the number of iterations, and `splitter`
below supplies fuel that is provably sufficient whenever `hop_len ≥ 1`. -/
def splitterLoop (N win hop : ℤ) : ℕ → ℤ → List (ℤ × ℤ)
  | 0, _ => []
  | fuel + 1, m =>
    if m + win ≤ N then (m, m + win) :: splitterLoop N win hop fuel (m + hop) else []

/-- `splitter(array, win_len, hop_len)` from utils.py: collect the index pairs
produced by the loop, then return the list of slices `array[m : m + win_len]`.
(The source's `return_df` flag only selects between two rectangular
representations, `pd.DataFrame` vs `np.array`, of the same list of slices.) -/
def splitter {α : Type} (a : List α) (win_len hop_len : ℤ) : List (List α) :=
  (splitterLoop (a.length : ℤ) win_len hop_len (((a.length : ℤ) - win_len).toNat + 2) 0).map
    (fun p => pySlice a p.1 p.2)

/-- Number of loop iterations of `splitterLoop` that emit a window, starting
from offset `m`, when `hop > 0`. -/
def windowCount (N win hop m : ℤ) : ℕ :=
  if m + win ≤ N then ((N - win - m) / hop).toNat + 1 else 0

/-- `np.mean` of a 1-D array: the sum divided by the length.  (`np.mean` of an
empty array is NaN; in the real-valued embedding `x / 0 = 0`.  The embedded
code only takes means of non-empty arrays.) -/
noncomputable def mean (xs : List ℝ) : ℝ := xs.sum / (xs.length : ℝ)

/-- `np.var`: population variance, the mean of the squared deviations from the
mean.  Used inside `np.std` and to state "non-zero variance". -/
noncomputable def np_var (xs : List ℝ) : ℝ := mean (xs.map (fun x => (x - mean xs) ^ 2))

/-- `np.std`: population standard deviation (ddof = 0), square root of `np_var`. -/
noncomputable def np_std (xs : List ℝ) : ℝ := Real.sqrt (np_var xs)

/-- `pandas.DataFrame.std`: sample standard deviation (ddof = 1), dividing the
sum of squared deviations by `n - 1`.  This real-valued version is the value
pandas computes for axes of length `n ≥ 2`; for `n ≤ 1` pandas yields NaN
(the real-valued expression degenerates to `x / 0 = 0`), which `pd_std_nan`
below models explicitly. -/
noncomputable def pd_std (xs : List ℝ) : ℝ :=
  Real.sqrt ((xs.map (fun x => (x - mean xs) ^ 2)).sum / ((xs.length : ℝ) - 1))

/-- NaN-aware `pandas.DataFrame.std` (ddof = 1): on an axis with fewer than
two entries the divisor `n - 1 ≤ 0` makes pandas produce NaN — modelled as
`none`; otherwise the sample standard deviation `pd_std`. -/
noncomputable def pd_std_nan (xs : List ℝ) : Option ℝ :=
  if xs.length ≤ 1 then none else some (pd_std xs)

-- Time-domain feature formulas of feature_extraction.py.

/-- `smsa(arr) = np.square(np.mean(np.sqrt(np.abs(arr))))`. -/
noncomputable def smsa (arr : List ℝ) : ℝ := (mean (arr.map (fun x => Real.sqrt |x|))) ^ 2

/-- `rms(arr) = np.sqrt(np.mean(np.square(arr)))`. -/
noncomputable def rms (arr : List ℝ) : ℝ := Real.sqrt (mean (arr.map (fun x => x ^ 2)))

/-- `peak(arr) = np.max(np.abs(arr))`.  `np.max` errors on an empty array; on a
non-empty array of absolute values (all nonnegative) it agrees with this fold. -/
noncomputable def peak (arr : List ℝ) : ℝ := (arr.map (fun x => |x|)).foldr max 0

/-- `crest_factor(arr) = peak(arr) / rms(arr)`. -/
noncomputable def crest_factor (arr : List ℝ) : ℝ := peak arr / rms arr

/-- `clearance_factor(arr) = peak(arr) / smsa(arr)`. -/
noncomputable def clearance_factor (arr : List ℝ) : ℝ := peak arr / smsa arr

/-- `shape_factor(arr) = rms(arr) / np.mean(np.abs(arr))`. -/
noncomputable def shape_factor (arr : List ℝ) : ℝ := rms arr / mean (arr.map (fun x => |x|))

/-- `impulse_factor(arr) = peak(arr) / np.mean(np.abs(arr))`. -/
noncomputable def impulse_factor (arr : List ℝ) : ℝ := peak arr / mean (arr.map (fun x => |x|))

-- The feature extractor.

/-- A rectangular feature table: named columns plus one list of values per
input row (`pd.DataFrame` with string column labels). -/
structure FeatureTable where
  columns : List String
  rows : List (List ℝ)

/-- `apply_feature(row, func_tuple)` of feature_extraction.py: invoke the
feature function on the row.  The `(function, args, kwargs)` tuple is embedded
as the function with its extra positional/keyword arguments already applied
(`func(·, *args, **kwargs)`), so a feature spec is a named `List ℝ → ℝ`. -/
def apply_feature (row : List ℝ) (func : List ℝ → ℝ) : ℝ := func row

/-- `feature_extractor(signals, features)`: for every row of `signals` (in
table order) apply every feature (in registration order of the `features`
mapping), then label the columns with the feature names.  Being a pure
function of its arguments, its output — in particular its column order — is
deterministic across repeated runs on identical input.

Zero-row input is an error path, not a 0-row result: on the empty window
table (`pd.DataFrame([])`, 0×0, as the splitter produces for zero windows)
`signals.apply` returns the empty input unchanged (pandas
`apply_empty_result`), and the subsequent `feature_values.columns =
features.keys()` assignment raises `ValueError: Length mismatch` whenever the
feature mapping is non-empty.  Embedded as the `Except.error` branch. -/
def feature_extractor (signals : List (List ℝ))
    (features : List (String × (List ℝ → ℝ))) : Except String FeatureTable :=
  if signals.length = 0 ∧ features.length ≠ 0 then
    .error "Length mismatch: expected axis has 0 elements"
  else
    .ok { columns := features.map Prod.fst
          rows := signals.map (fun row => features.map (fun fi => apply_feature row fi.2)) }

/-- Option-valued traversal: map `f` over the list, failing (like an uncaught
Python exception) as soon as `f` fails on an element. -/
def mapOption {α β : Type} (f : α → Option β) : List α → Option (List β)
  | [] => some []
  | x :: t =>
    match f x with
    | none => none
    | some y => Option.map (fun ys => y :: ys) (mapOption f t)

/-- `feature_extractor` with fallible feature functions: a feature function
that raises is embedded as one returning `none`, and — as in the source, where
an exception inside `signals.apply` propagates out of the call — any failure
on any row makes the whole extraction return `none` (no partial table). -/
def feature_extractor_fallible (signals : List (List ℝ))
    (features : List (String × (List ℝ → Option ℝ))) : Option FeatureTable :=
  Option.map (fun rows => { columns := features.map Prod.fst, rows := rows })
    (mapOption (fun row => mapOption (fun fi => fi.2 row) features) signals)

-- The z-score normalizer of utils.py.

/-- The epsilon guard applied to a standard deviation before dividing:
`np.where(std == 0, eps, std)` on the ndarray path and `.replace(0, eps)` on
the DataFrame path both replace an exact zero by `eps`. -/
noncomputable def guardedStd (σ eps : ℝ) : ℝ := if σ = 0 then eps else σ

/-- Column `j` of a rectangular table of reals. -/
def column (a : List (List ℝ)) (j : ℕ) : List ℝ := a.map (fun r => r.getD j 0)

/-- The ndarray branch of `z_score_scaler`: subtract the `np.mean` and divide
by the `np.std` (zero replaced by `eps`) taken along the given axis
(`axis = 1`: per row; `axis = 0`: per column). -/
noncomputable def zscore_nd (a : List (List ℝ)) (axis : ℕ) (eps : ℝ) : List (List ℝ) :=
  if axis = 1 then
    a.map (fun r => r.map (fun x => (x - mean r) / guardedStd (np_std r) eps))
  else
    a.map (fun r => r.mapIdx (fun j x =>
      (x - mean (column a j)) / guardedStd (np_std (column a j)) eps))

/-- `.replace(0, eps)` applied to a possibly-NaN standard deviation: an exact
zero becomes `eps`, any other real value is kept, and NaN (`none`) is NOT
replaced — `.replace` matches only the value 0. -/
noncomputable def replaceZeroNaN (σ : Option ℝ) (eps : ℝ) : Option ℝ :=
  match σ with
  | none => none
  | some s => some (if s = 0 then eps else s)

/-- NaN-aware row-wise (`axis = 1`) DataFrame z-score: each entry is divided
by the row's `.replace(0, eps)`-guarded sample standard deviation, and is NaN
(`none`) whenever that divisor is NaN — i.e. whenever the row has fewer than
two entries. -/
noncomputable def zscore_df_nan_axis1 (d : List (List ℝ)) (eps : ℝ) :
    List (List (Option ℝ)) :=
  d.map (fun r => r.map (fun x =>
    (replaceZeroNaN (pd_std_nan r) eps).map (fun s => (x - mean r) / s)))

/-- The DataFrame branch of `z_score_scaler`: same shape as `zscore_nd` but
with the pandas sample standard deviation (`ddof = 1`) and `.replace(0, eps)`.
(For axes of length ≤ 1 the true pandas output is NaN — see `pd_std_nan` and
`zscore_df_nan_axis1`; the representation-level claims about `z_score_scaler`
do not depend on the numeric entries.) -/
noncomputable def zscore_df (d : List (List ℝ)) (axis : ℕ) (eps : ℝ) : List (List ℝ) :=
  if axis = 1 then
    d.map (fun r => r.map (fun x => (x - mean r) / guardedStd (pd_std r) eps))
  else
    d.map (fun r => r.mapIdx (fun j x =>
      (x - mean (column d j)) / guardedStd (pd_std (column d j)) eps))

/-- The two input representations `z_score_scaler` accepts: a
`pd.DataFrame` or a `np.ndarray`, each carrying a rectangular table of reals. -/
inductive NumArray2D : Type
  | df (table : List (List ℝ))
  | nd (table : List (List ℝ))

/-- `z_score_scaler(signals, axis, return_df, eps)` of utils.py: reject an
axis outside `{0, 1}` (ValueError), then normalize.  On the DataFrame branch
the result is returned as a DataFrame when `return_df` holds and as
`scaled.to_numpy()` otherwise; the ndarray branch always returns an ndarray
(it never consults `return_df`). -/
noncomputable def z_score_scaler (signals : NumArray2D) (axis : ℕ)
    (return_df : Bool) (eps : ℝ) : Except String NumArray2D :=
  if axis = 0 ∨ axis = 1 then
    match signals with
    | .df d =>
      let scaled := zscore_df d axis eps
      if return_df then .ok (.df scaled) else .ok (.nd scaled)
    | .nd a => .ok (.nd (zscore_nd a axis eps))
  else
    .error "axis must be 0 (column-wise) or 1 (row-wise)"

/-- Representation tag of a `z_score_scaler` input or output value. -/
def isDataFrame : NumArray2D → Bool
  | .df _ => true
  | .nd _ => false

/-- Representation tag of a `z_score_scaler` result (`none` on an error). -/
def resultIsDataFrame : Except String NumArray2D → Option Bool
  | .ok s => some (isDataFrame s)
  | .error _ => none

-- The catch22 plugin extractor.

/-- One loop iteration of `catch_features`: run the plugin on a row, and when
`include_additionals` holds extend the returned name/value lists with
`DN_Mean` / `DN_Spread_Std` and the row's `np.mean` / `np.std`.  The external
`pycatch22.catch22_all` call is a parameter (`plugin`), returning the pair
(names, values). -/
noncomputable def catch_row (plugin : List ℝ → List String × List ℝ)
    (row : List ℝ) (include_additionals : Bool) : List String × List ℝ :=
  let results := plugin row
  if include_additionals then
    (results.1 ++ ["DN_Mean", "DN_Spread_Std"], results.2 ++ [mean row, np_std row])
  else
    results

/-- `catch_features(df, include_additionals)`: iterate over the rows,
collecting each row's plugin values; the column names are taken from the
`results` variable left over from the LAST loop iteration.  When `df` has no
rows that variable was never assigned, and the trailing
`pd.DataFrame(..., columns=results["names"])` raises `NameError` — embedded
as the `none` result. -/
noncomputable def catch_features (plugin : List ℝ → List String × List ℝ)
    (df : List (List ℝ)) (include_additionals : Bool) :
    Option (List String × List (List ℝ)) :=
  let final := df.foldl
    (fun acc row =>
      let r := catch_row plugin row include_additionals
      (acc.1 ++ [r.2], some r.1))
    (([], none) : List (List ℝ) × Option (List String))
  match final.2 with
  | none => none
  | some names => some (names, final.1)

theorem splitterLoop_eq_range (N win hop : ℤ) (hhop : 0 < hop) :
    ∀ (fuel : ℕ) (m : ℤ), windowCount N win hop m < fuel →
      splitterLoop N win hop fuel m
        = (List.range (windowCount N win hop m)).map
            (fun (i : ℕ) => (m + (i : ℤ) * hop, m + (i : ℤ) * hop + win)) := by
  intro fuel
  induction fuel with
  | zero => intro m hm; omega
  | succ fuel ih =>
    intro m hm
    by_cases hg : m + win ≤ N
    · have hq0 : 0 ≤ (N - win - m) / hop := Int.ediv_nonneg (by omega) hhop.le
      have hcount : windowCount N win hop m = ((N - win - m) / hop).toNat + 1 := by
        simp [windowCount, hg]
      have hnext : windowCount N win hop (m + hop) = ((N - win - m) / hop).toNat := by
        by_cases hg2 : m + hop + win ≤ N
        · have hstep : (N - win - (m + hop)) / hop = (N - win - m) / hop - 1 := by
            have : N - win - (m + hop) = (N - win - m) + (-1) * hop := by ring
            rw [this, Int.add_mul_ediv_right _ _ hhop.ne']; omega
          have hone : 1 ≤ (N - win - m) / hop :=
            (Int.le_ediv_iff_mul_le hhop).mpr (by omega)
          simp only [windowCount, hg2, if_true, hstep]
          omega
        · have hlt : (N - win - m) / hop < 1 :=
            (Int.ediv_lt_iff_lt_mul hhop).mpr (by omega)
          simp only [windowCount, hg2, if_false]
          omega
      rw [hcount] at hm ⊢
      have hfuel : windowCount N win hop (m + hop) < fuel := by rw [hnext]; omega
      have hIH := ih (m + hop) hfuel
      rw [hnext] at hIH
      simp only [splitterLoop, hg, if_true]
      rw [hIH, List.range_succ_eq_map, List.map_cons, List.map_map]
      congr 1
      · simp
      · apply List.map_congr_left
        intro i _
        simp only [Function.comp_apply, Prod.mk.injEq]
        constructor <;> (push_cast; ring)
    · simp only [windowCount, hg, if_false, List.range_zero, List.map_nil]
      simp [splitterLoop, hg]

theorem splitter_eq_range {α : Type} (a : List α) (win hop : ℤ) (hhop : 0 < hop) :
    splitter a win hop
      = (List.range (windowCount (a.length : ℤ) win hop 0)).map
          (fun (i : ℕ) => pySlice a ((i : ℤ) * hop) ((i : ℤ) * hop + win)) := by
  have hfuel : windowCount (a.length : ℤ) win hop 0 < ((a.length : ℤ) - win).toNat + 2 := by
    by_cases hg : (0 : ℤ) + win ≤ (a.length : ℤ)
    · have hle : ((a.length : ℤ) - win - 0) / hop ≤ (a.length : ℤ) - win - 0 :=
        Int.ediv_le_self hop (by omega)
      simp only [windowCount, hg, if_true]
      omega
    · simp only [windowCount, hg, if_false]; omega
  rw [splitter, splitterLoop_eq_range _ _ _ hhop _ _ hfuel, List.map_map]
  apply List.map_congr_left
  intro i _
  simp [Function.comp_apply, zero_add]

theorem windowCount_eq_max (N win hop : ℤ) (hhop : 0 < hop) :
    windowCount N win hop 0 = (max 0 ((N - win).fdiv hop + 1)).toNat := by
  rw [Int.fdiv_eq_ediv _ hhop.le]
  by_cases hg : (0 : ℤ) + win ≤ N
  · have hq0 : 0 ≤ (N - win) / hop := Int.ediv_nonneg (by omega) hhop.le
    simp only [windowCount, hg, if_true, sub_zero]
    omega
  · have hlt : (N - win) / hop < 0 := by
      have := (Int.ediv_lt_iff_lt_mul (b := 0) hhop).mpr (by omega : N - win < 0 * hop)
      exact this
    simp only [windowCount, hg, if_false]
    omega

/-- C1: for every 1-D array of length `N` and integers `win_len > 0`,
`hop_len > 0`, the splitter emits exactly `max 0 ((N - win_len) ⌊/⌋ hop_len + 1)`
windows, window `i` being the slice `array[i*hop_len : i*hop_len + win_len]`,
in increasing start-offset order (the list equals the range-indexed table of
slices); in particular `win_len > N` yields the empty window table without an
error. -/
theorem splitter_window_table {α : Type} (a : List α) (win_len hop_len : ℤ)
    (_hwin : 0 < win_len) (hhop : 0 < hop_len) :
    splitter a win_len hop_len
        = (List.range (max 0 (((a.length : ℤ) - win_len).fdiv hop_len + 1)).toNat).map
            (fun (i : ℕ) => pySlice a ((i : ℤ) * hop_len) ((i : ℤ) * hop_len + win_len))
      ∧ (splitter a win_len hop_len).length
          = (max 0 (((a.length : ℤ) - win_len).fdiv hop_len + 1)).toNat
      ∧ ((a.length : ℤ) < win_len → splitter a win_len hop_len = []) := by
  have hmain := splitter_eq_range a win_len hop_len hhop
  have hcnt := windowCount_eq_max (a.length : ℤ) win_len hop_len hhop
  rw [hcnt] at hmain
  refine ⟨hmain, ?_, ?_⟩
  · rw [hmain, List.length_map, List.length_range]
  · intro hN
    have h0 : windowCount (a.length : ℤ) win_len hop_len 0 = 0 := by
      simp only [windowCount, if_neg (by omega : ¬ ((0 : ℤ) + win_len ≤ (a.length : ℤ)))]
    rw [hmain, ← hcnt, h0]
    simp

/-- Witness for C1 at `array = [0,…,9]`, `win_len = 4`, `hop_len = 2`:
the hypotheses hold and the splitter emits the 4 windows starting at
offsets 0, 2, 4, 6. -/
theorem splitter_window_table_witness :
    (0 : ℤ) < 4 ∧ (0 : ℤ) < 2 ∧
      (splitter ([0, 1, 2, 3, 4, 5, 6, 7, 8, 9] : List ℤ) 4 2
          = (List.range (max 0 (((([0, 1, 2, 3, 4, 5, 6, 7, 8, 9] : List ℤ).length : ℤ) - 4).fdiv 2 + 1)).toNat).map
              (fun (i : ℕ) =>
                pySlice ([0, 1, 2, 3, 4, 5, 6, 7, 8, 9] : List ℤ) ((i : ℤ) * 2) ((i : ℤ) * 2 + 4))
        ∧ (splitter ([0, 1, 2, 3, 4, 5, 6, 7, 8, 9] : List ℤ) 4 2).length
            = (max 0 (((([0, 1, 2, 3, 4, 5, 6, 7, 8, 9] : List ℤ).length : ℤ) - 4).fdiv 2 + 1)).toNat
        ∧ ((([0, 1, 2, 3, 4, 5, 6, 7, 8, 9] : List ℤ).length : ℤ) < 4 →
            splitter ([0, 1, 2, 3, 4, 5, 6, 7, 8, 9] : List ℤ) 4 2 = []))
      ∧ splitter ([0, 1, 2, 3, 4, 5, 6, 7, 8, 9] : List ℤ) 4 2
          = [[0, 1, 2, 3], [2, 3, 4, 5], [4, 5, 6, 7], [6, 7, 8, 9]] :=
  ⟨by norm_num, by norm_num,
    splitter_window_table ([0, 1, 2, 3, 4, 5, 6, 7, 8, 9] : List ℤ) 4 2 (by norm_num) (by norm_num),
    by decide⟩

/-- C2 (the code lacks the guard the claim demands): calling the splitter with
`win_len = 0` (≤ 0) and `hop_len = 1` on the length-3 array `[0,0,0]` raises no
error at all — it returns a table of four degenerate (empty) windows.  (For
`hop_len ≤ 0` with `win_len ≤ N` the source loop does not even terminate.) -/
theorem splitter_no_invalid_parameter_guard :
    splitter ([0, 0, 0] : List ℤ) 0 1 = [[], [], [], []] := by decide

/-- C3 counterexample: on the zero-row window table with one feature spec the
extractor does not return a 0-row one-column table — the pandas column
assignment fails with a length mismatch, so the claim's universal shape
guarantee is false at the empty table. -/
theorem feature_extractor_empty_table_counterexample :
    feature_extractor [] [("f", fun (_ : List ℝ) => (0 : ℝ))]
      = .error "Length mismatch: expected axis has 0 elements" := rfl

/-- C3 (amended): for every NON-empty window table and every ordered mapping
of scalar feature specs, the extractor returns a table with exactly one row
per input row, in the same row order (the rows are the input rows mapped in
order, each row's entries being the features applied in registration order),
and exactly one column per feature spec, named after the spec, in
registration order.  The extractor is a pure function of
`(signals, features)` — for any two runs on identical input these equations
force identical output, so the column order is deterministic across repeated
runs.  (On the zero-row table the call instead fails, as the counterexample
shows.) -/
theorem feature_extractor_table (signals : List (List ℝ))
    (features : List (String × (List ℝ → ℝ))) (hne : signals ≠ []) :
    feature_extractor signals features
        = .ok { columns := features.map Prod.fst
                rows := signals.map (fun row => features.map (fun fi => apply_feature row fi.2)) }
      ∧ (signals.map (fun row => features.map (fun fi => apply_feature row fi.2))).length
          = signals.length := by
  constructor
  · rw [feature_extractor, if_neg]
    rintro ⟨h1, _⟩
    exact hne (List.length_eq_zero.mp h1)
  · simp

/-- Witness for C3 (amended) at a one-row table with a single feature. -/
theorem feature_extractor_table_witness :
    ([[(1 : ℝ), 2]] ≠ ([] : List (List ℝ)))
      ∧ (feature_extractor [[(1 : ℝ), 2]] [("total", fun (r : List ℝ) => r.sum)]
            = .ok { columns := [("total", fun (r : List ℝ) => r.sum)].map Prod.fst
                    rows := [[(1 : ℝ), 2]].map (fun row =>
                      [("total", fun (r : List ℝ) => r.sum)].map
                        (fun fi => apply_feature row fi.2)) }
        ∧ ([[(1 : ℝ), 2]].map (fun row =>
              [("total", fun (r : List ℝ) => r.sum)].map
                (fun fi => apply_feature row fi.2))).length
            = [[(1 : ℝ), 2]].length) :=
  ⟨by simp, feature_extractor_table [[(1 : ℝ), 2]]
      [("total", fun (r : List ℝ) => r.sum)] (by simp)⟩

theorem mapOption_eq_none {α β : Type} (f : α → Option β) {l : List α} {x : α}
    (hx : x ∈ l) (hfx : f x = none) : mapOption f l = none := by
  induction l with
  | nil => cases hx
  | cons y t ih =>
    rcases List.mem_cons.mp hx with h | h
    · subst h; simp [mapOption, hfx]
    · cases hfy : f y with
      | none => simp [mapOption, hfy]
      | some v => simp [mapOption, hfy, ih h]

/-- C4: if any feature function fails (raises) on any row, the entire
extractor call fails and returns no result at all: no table containing the
rows already processed before the failing row is returned. -/
theorem feature_extractor_fail_fast (signals : List (List ℝ))
    (features : List (String × (List ℝ → Option ℝ))) (row : List ℝ)
    (fi : String × (List ℝ → Option ℝ)) (hrow : row ∈ signals)
    (hfi : fi ∈ features) (hfail : fi.2 row = none) :
    feature_extractor_fallible signals features = none := by
  have hinner : mapOption (fun g => g.2 row) features = none :=
    mapOption_eq_none _ hfi hfail
  have houter : mapOption (fun r => mapOption (fun g => g.2 r) features) signals = none :=
    mapOption_eq_none _ hrow hinner
  simp [feature_extractor_fallible, houter]

/-- Witness for C4: a single-row table with a single always-failing feature. -/
theorem feature_extractor_fail_fast_witness :
    ([(0 : ℝ)] ∈ [[(0 : ℝ)]])
      ∧ (("bad", fun (_ : List ℝ) => (none : Option ℝ))
          ∈ [("bad", fun (_ : List ℝ) => (none : Option ℝ))])
      ∧ (("bad", fun (_ : List ℝ) => (none : Option ℝ)).2 [(0 : ℝ)] = none)
      ∧ feature_extractor_fallible [[(0 : ℝ)]]
          [("bad", fun (_ : List ℝ) => (none : Option ℝ))] = none :=
  ⟨List.mem_singleton.mpr rfl, List.mem_singleton.mpr rfl, rfl,
    feature_extractor_fail_fast _ _ [(0 : ℝ)] ("bad", fun _ => none)
      (List.mem_singleton.mpr rfl) (List.mem_singleton.mpr rfl) rfl⟩

/-- C10: `catch_features` called on an input table with zero rows fails with
an error (the `results` variable used for the column names is only assigned
while iterating over rows, so the final `pd.DataFrame(...)` raises NameError)
instead of returning an empty feature table with the plugin's column names. -/
theorem catch_features_empty_input_fails
    (plugin : List ℝ → List String × List ℝ) (include_additionals : Bool) :
    catch_features plugin [] include_additionals = none := rfl

theorem mean_replicate {n : ℕ} (hn : 0 < n) (c : ℝ) :
    mean (List.replicate n c) = c := by
  have hn' : (n : ℝ) ≠ 0 := Nat.cast_ne_zero.mpr hn.ne'
  simp only [mean, List.sum_replicate, List.length_replicate, nsmul_eq_mul]
  field_simp

/-- C5: the time-domain feature functions compute exactly the canonical
formulas; in particular `rms [0,1,2,3] = √3.5` and the rms of any non-empty
constant array with value `c` is `|c|`. -/
theorem time_domain_feature_formulas :
    (∀ arr : List ℝ, rms arr = Real.sqrt (mean (arr.map (fun x => x ^ 2))))
      ∧ (∀ arr : List ℝ, peak arr = (arr.map (fun x => |x|)).foldr max 0)
      ∧ (∀ arr : List ℝ, smsa arr = (mean (arr.map (fun x => Real.sqrt |x|))) ^ 2)
      ∧ (∀ arr : List ℝ, crest_factor arr = peak arr / rms arr)
      ∧ (∀ arr : List ℝ, clearance_factor arr = peak arr / smsa arr)
      ∧ (∀ arr : List ℝ, shape_factor arr = rms arr / mean (arr.map (fun x => |x|)))
      ∧ (∀ arr : List ℝ, impulse_factor arr = peak arr / mean (arr.map (fun x => |x|)))
      ∧ rms [(0 : ℝ), 1, 2, 3] = Real.sqrt 3.5
      ∧ (∀ (c : ℝ) (n : ℕ), 0 < n → rms (List.replicate n c) = |c|) := by
  refine ⟨fun _ => rfl, fun _ => rfl, fun _ => rfl, fun _ => rfl, fun _ => rfl,
    fun _ => rfl, fun _ => rfl, ?_, ?_⟩
  · have h : mean (([(0 : ℝ), 1, 2, 3]).map (fun x => x ^ 2)) = 3.5 := by
      norm_num [mean]
    rw [rms, h]
  · intro c n hn
    have hmap : (List.replicate n c).map (fun x => x ^ 2) = List.replicate n (c ^ 2) := by
      simp [List.map_replicate]
    rw [rms, hmap, mean_replicate hn, Real.sqrt_sq_eq_abs]

/-- Witness for C5: `rms` of the constant array `[-3, -3]` is `|-3| = 3`. -/
theorem time_domain_feature_formulas_witness :
    0 < 2 ∧ rms (List.replicate 2 (-3 : ℝ)) = |(-3 : ℝ)| :=
  ⟨by norm_num, time_domain_feature_formulas.2.2.2.2.2.2.2.2 (-3) 2 (by norm_num)⟩

theorem peak_cons (y : ℝ) (t : List ℝ) : peak (y :: t) = max |y| (peak t) := rfl

theorem abs_le_peak {arr : List ℝ} {x : ℝ} (hx : x ∈ arr) : |x| ≤ peak arr := by
  induction arr with
  | nil => cases hx
  | cons y t ih =>
    rw [peak_cons]
    rcases List.mem_cons.mp hx with h | h
    · subst h; exact le_max_left _ _
    · exact le_max_of_le_right (ih h)

theorem crest_factor_gt_one_aux (arr : List ℝ) (a b : ℝ) (ha : a ∈ arr)
    (hb : b ∈ arr) (hba : |b| < |a|) : 1 < crest_factor arr := by
  have hPa : |a| ≤ peak arr := abs_le_peak ha
  have hbP : |b| < peak arr := lt_of_lt_of_le hba hPa
  have hP : 0 < peak arr := lt_of_le_of_lt (abs_nonneg b) hbP
  have hsq_le : ∀ x ∈ arr, x ^ 2 ≤ (peak arr) ^ 2 := by
    intro x hx
    calc x ^ 2 = |x| ^ 2 := (sq_abs x).symm
    _ ≤ (peak arr) ^ 2 := pow_le_pow_left₀ (abs_nonneg x) (abs_le_peak hx) 2
  have hsq_lt : b ^ 2 < (peak arr) ^ 2 := by
    calc b ^ 2 = |b| ^ 2 := (sq_abs b).symm
    _ < (peak arr) ^ 2 := pow_lt_pow_left₀ hbP (abs_nonneg b) (by norm_num)
  have hlen : 0 < arr.length := List.length_pos.mpr (List.ne_nil_of_mem ha)
  have hlenR : (0 : ℝ) < (arr.length : ℝ) := by exact_mod_cast hlen
  have hsum_lt : (arr.map (fun x => x ^ 2)).sum
      < (arr.map (fun _ => (peak arr) ^ 2)).sum :=
    List.sum_lt_sum _ _ hsq_le ⟨b, hb, hsq_lt⟩
  have hconst : (arr.map (fun _ => (peak arr) ^ 2)).sum
      = (arr.length : ℝ) * (peak arr) ^ 2 := by
    rw [List.map_const', List.sum_replicate, nsmul_eq_mul]
  have hmean_lt : mean (arr.map (fun x => x ^ 2)) < (peak arr) ^ 2 := by
    rw [mean, List.length_map, div_lt_iff₀ hlenR]
    calc (arr.map (fun x => x ^ 2)).sum < (arr.length : ℝ) * (peak arr) ^ 2 := by
          rw [← hconst]; exact hsum_lt
    _ = (peak arr) ^ 2 * (arr.length : ℝ) := by ring
  have habs_a : 0 < |a| := lt_of_le_of_lt (abs_nonneg b) hba
  have ha2pos : 0 < a ^ 2 := by
    rw [← sq_abs]; exact pow_pos habs_a 2
  have hsum_pos : 0 < (arr.map (fun x => x ^ 2)).sum := by
    refine lt_of_lt_of_le ha2pos ?_
    refine List.single_le_sum ?_ _ (List.mem_map_of_mem _ ha)
    intro x hx
    rcases List.mem_map.mp hx with ⟨y, _, rfl⟩
    positivity
  have hmean_pos : 0 < mean (arr.map (fun x => x ^ 2)) := by
    rw [mean, List.length_map]
    exact div_pos hsum_pos hlenR
  have hrms_pos : 0 < rms arr := Real.sqrt_pos.mpr hmean_pos
  have hrms_lt : rms arr < peak arr := by
    rw [rms]
    have h := Real.sqrt_lt_sqrt hmean_pos.le hmean_lt
    rwa [Real.sqrt_sq hP.le] at h
  rw [crest_factor]
  exact (one_lt_div hrms_pos).mpr hrms_lt

/-- C6 (amended): for every numeric array whose entries do NOT all have the
same absolute value, the crest factor is strictly greater than 1.  (The
amendment is forced by the counterexample `[1, -1]`: non-zero variance is not
enough when all absolute values coincide.) -/
theorem crest_factor_gt_one (arr : List ℝ) (a b : ℝ) (ha : a ∈ arr)
    (hb : b ∈ arr) (hab : |a| ≠ |b|) : 1 < crest_factor arr := by
  rcases lt_or_gt_of_ne hab with h | h
  · exact crest_factor_gt_one_aux arr b a hb ha h
  · exact crest_factor_gt_one_aux arr a b ha hb h

/-- Witness for C6 (amended) at `arr = [2, 1]`. -/
theorem crest_factor_gt_one_witness :
    ((2 : ℝ) ∈ [(2 : ℝ), 1]) ∧ ((1 : ℝ) ∈ [(2 : ℝ), 1])
      ∧ (|(2 : ℝ)| ≠ |(1 : ℝ)|) ∧ 1 < crest_factor [(2 : ℝ), 1] :=
  ⟨by simp, by simp, by norm_num,
    crest_factor_gt_one [(2 : ℝ), 1] 2 1 (by simp) (by simp) (by norm_num)⟩

/-- C6 counterexample: the array `[1, -1]` has non-zero (population) variance,
yet its crest factor is exactly 1, not strictly greater than 1. -/
theorem crest_factor_nonzero_variance_counterexample :
    np_var [(1 : ℝ), -1] ≠ 0 ∧ ¬ (1 < crest_factor [(1 : ℝ), -1]) := by
  constructor
  · have h : np_var [(1 : ℝ), -1] = 1 := by
      norm_num [np_var, mean]
    rw [h]; norm_num
  · have hpeak : peak [(1 : ℝ), -1] = 1 := by
      simp [peak]
    have hmean : mean (([(1 : ℝ), -1]).map (fun x => x ^ 2)) = 1 := by
      norm_num [mean]
    have hrms : rms [(1 : ℝ), -1] = 1 := by
      rw [rms, hmean, Real.sqrt_one]
    rw [crest_factor, hpeak, hrms]
    norm_num

set_option maxHeartbeats 1000000 in
/-- C7: row-wise (`axis = 1`) z-score normalization of the single-row table
`[[1, 2, 3, 4]]` (ndarray path) yields a row with mean exactly 0 and
(population) standard deviation exactly 1, whose values are within `10⁻⁴` of
`[-1.3416, -0.4472, 0.4472, 1.3416]`. -/
theorem z_score_row_one_two_three_four :
    mean ((zscore_nd [[(1 : ℝ), 2, 3, 4]] 1 (1e-10)).getD 0 []) = 0
      ∧ np_std ((zscore_nd [[(1 : ℝ), 2, 3, 4]] 1 (1e-10)).getD 0 []) = 1
      ∧ |((zscore_nd [[(1 : ℝ), 2, 3, 4]] 1 (1e-10)).getD 0 []).getD 0 0 - (-1.3416)| < 1e-4
      ∧ |((zscore_nd [[(1 : ℝ), 2, 3, 4]] 1 (1e-10)).getD 0 []).getD 1 0 - (-0.4472)| < 1e-4
      ∧ |((zscore_nd [[(1 : ℝ), 2, 3, 4]] 1 (1e-10)).getD 0 []).getD 2 0 - 0.4472| < 1e-4
      ∧ |((zscore_nd [[(1 : ℝ), 2, 3, 4]] 1 (1e-10)).getD 0 []).getD 3 0 - 1.3416| < 1e-4 := by
  have hmean : mean [(1 : ℝ), 2, 3, 4] = 2.5 := by norm_num [mean]
  have hvar : np_var [(1 : ℝ), 2, 3, 4] = 1.25 := by norm_num [np_var, mean]
  have hstd : np_std [(1 : ℝ), 2, 3, 4] = Real.sqrt 1.25 := by rw [np_std, hvar]
  have hs_pos : (0 : ℝ) < Real.sqrt 1.25 := Real.sqrt_pos.mpr (by norm_num)
  have hs_ne : Real.sqrt 1.25 ≠ 0 := hs_pos.ne'
  have hg : guardedStd (np_std [(1 : ℝ), 2, 3, 4]) (1e-10) = Real.sqrt 1.25 := by
    rw [guardedStd, hstd, if_neg hs_ne]
  have hrow : (zscore_nd [[(1 : ℝ), 2, 3, 4]] 1 (1e-10)).getD 0 []
      = [((1 : ℝ) - 2.5) / Real.sqrt 1.25, ((2 : ℝ) - 2.5) / Real.sqrt 1.25,
         ((3 : ℝ) - 2.5) / Real.sqrt 1.25, ((4 : ℝ) - 2.5) / Real.sqrt 1.25] := by
    simp [zscore_nd, hmean, hg]
  have hs2 : Real.sqrt 1.25 ^ 2 = 1.25 := Real.sq_sqrt (by norm_num)
  have hsl : (1.11803 : ℝ) < Real.sqrt 1.25 := by nlinarith [hs_pos, hs2]
  have hsu : Real.sqrt 1.25 < (1.11804 : ℝ) := by nlinarith [hs_pos, hs2]
  have h15u : (1.5 : ℝ) / Real.sqrt 1.25 < 1.3417 := by
    rw [div_lt_iff₀ hs_pos]; nlinarith [hsl]
  have h15l : (1.3415 : ℝ) < 1.5 / Real.sqrt 1.25 := by
    rw [lt_div_iff₀ hs_pos]; nlinarith [hsu]
  have h05u : (0.5 : ℝ) / Real.sqrt 1.25 < 0.4473 := by
    rw [div_lt_iff₀ hs_pos]; nlinarith [hsl]
  have h05l : (0.4471 : ℝ) < 0.5 / Real.sqrt 1.25 := by
    rw [lt_div_iff₀ hs_pos]; nlinarith [hsu]
  have hmean_row : mean ((zscore_nd [[(1 : ℝ), 2, 3, 4]] 1 (1e-10)).getD 0 []) = 0 := by
    rw [hrow, mean]
    simp only [List.sum_cons, List.sum_nil, List.length_cons, List.length_nil]
    field_simp
    ring
  refine ⟨hmean_row, ?_, ?_, ?_, ?_, ?_⟩
  · rw [np_std, np_var, hmean_row, hrow]
    have h1 : mean (([((1 : ℝ) - 2.5) / Real.sqrt 1.25, ((2 : ℝ) - 2.5) / Real.sqrt 1.25,
        ((3 : ℝ) - 2.5) / Real.sqrt 1.25, ((4 : ℝ) - 2.5) / Real.sqrt 1.25]).map
          (fun x => (x - 0) ^ 2)) = 1 := by
      rw [mean]
      simp only [List.map_cons, List.map_nil, List.sum_cons, List.sum_nil,
        List.length_cons, List.length_nil, sub_zero, div_pow]
      rw [hs2]
      norm_num
    rw [h1, Real.sqrt_one]
  · rw [hrow]
    have hc : ((1 : ℝ) - 2.5) / Real.sqrt 1.25 = -(1.5 / Real.sqrt 1.25) := by ring
    simp only [List.getD_cons_zero]
    rw [hc, abs_lt]
    constructor <;> linarith [h15u, h15l]
  · rw [hrow]
    have hc : ((2 : ℝ) - 2.5) / Real.sqrt 1.25 = -(0.5 / Real.sqrt 1.25) := by ring
    simp only [List.getD_cons_succ, List.getD_cons_zero]
    rw [hc, abs_lt]
    constructor <;> linarith [h05u, h05l]
  · rw [hrow]
    have hc : ((3 : ℝ) - 2.5) / Real.sqrt 1.25 = 0.5 / Real.sqrt 1.25 := by ring
    simp only [List.getD_cons_succ, List.getD_cons_zero]
    rw [hc, abs_lt]
    constructor <;> linarith [h05u, h05l]
  · rw [hrow]
    have hc : ((4 : ℝ) - 2.5) / Real.sqrt 1.25 = 1.5 / Real.sqrt 1.25 := by ring
    simp only [List.getD_cons_succ, List.getD_cons_zero]
    rw [hc, abs_lt]
    constructor <;> linarith [h15u, h15l]

/-- C8 counterexample: on the DataFrame path, the table `[[1], [2]]` with
`axis = 1` has length-1 rows, whose sample standard deviation (ddof = 1) is
NaN; `.replace(0, eps)` matches only the exact value 0 and leaves the NaN,
so every output entry is NaN — the normalizer does NOT avoid NaN on every
numeric table. -/
theorem z_score_dataframe_nan_counterexample :
    pd_std_nan [(1 : ℝ)] = none
      ∧ replaceZeroNaN (pd_std_nan [(1 : ℝ)]) (1e-10) = none
      ∧ zscore_df_nan_axis1 [[(1 : ℝ)], [(2 : ℝ)]] (1e-10) = [[none], [none]] :=
  ⟨rfl, rfl, rfl⟩

/-- C8 (amended): a standard deviation of exactly zero is replaced by `eps`
before dividing, and the divisor actually used is never zero (given
`eps ≠ 0`, as the default `1e-10` is) — on the ndarray path (`np_std`, via
`np.where`) for both axes, and on the DataFrame path (`pd_std`, via
`.replace`) for rows/columns with at least two entries.  On the DataFrame
path a row/column with fewer than two entries has NaN standard deviation
(ddof = 1), which `.replace(0, eps)` leaves untouched, and the output is NaN
there. -/
theorem z_score_eps_substitution (eps : ℝ) (heps : eps ≠ 0) :
    (∀ xs : List ℝ, np_std xs = 0 → guardedStd (np_std xs) eps = eps)
      ∧ (∀ xs : List ℝ, guardedStd (np_std xs) eps ≠ 0)
      ∧ (∀ a : List (List ℝ), zscore_nd a 1 eps
          = a.map (fun r => r.map (fun x => (x - mean r) / guardedStd (np_std r) eps)))
      ∧ (∀ a : List (List ℝ), zscore_nd a 0 eps
          = a.map (fun r => r.mapIdx (fun j x =>
              (x - mean (column a j)) / guardedStd (np_std (column a j)) eps)))
      ∧ (∀ xs : List ℝ, 2 ≤ xs.length →
          replaceZeroNaN (pd_std_nan xs) eps = some (guardedStd (pd_std xs) eps))
      ∧ (∀ xs : List ℝ, guardedStd (pd_std xs) eps ≠ 0)
      ∧ (∀ xs : List ℝ, xs.length ≤ 1 → replaceZeroNaN (pd_std_nan xs) eps = none) := by
  have hguard : ∀ σ : ℝ, guardedStd σ eps ≠ 0 := by
    intro σ
    rw [guardedStd]
    by_cases hσ : σ = 0
    · rw [if_pos hσ]; exact heps
    · rw [if_neg hσ]; exact hσ
  refine ⟨?_, fun xs => hguard _, fun a => rfl, fun a => rfl, ?_, fun xs => hguard _, ?_⟩
  · intro xs hxs; rw [guardedStd, if_pos hxs]
  · intro xs hxs
    rw [pd_std_nan, if_neg (by omega), replaceZeroNaN, guardedStd]
  · intro xs hxs
    rw [pd_std_nan, if_pos hxs, replaceZeroNaN]

/-- Witness for C8 (amended) at the default `eps = 1e-10`: the length-2 row
`[1, 1]` gets the eps-substituted (hence nonzero) divisor on both paths. -/
theorem z_score_eps_substitution_witness :
    ((1e-10 : ℝ) ≠ 0) ∧ (2 ≤ ([(1 : ℝ), 1]).length)
      ∧ replaceZeroNaN (pd_std_nan [(1 : ℝ), 1]) (1e-10)
          = some (guardedStd (pd_std [(1 : ℝ), 1]) (1e-10)) :=
  ⟨by norm_num, by norm_num,
    (z_score_eps_substitution (1e-10) (by norm_num)).2.2.2.2.1 [(1 : ℝ), 1] (by norm_num)⟩

/-- C9 counterexample: with `return_df = False`, a DataFrame input to
`z_score_scaler` yields an ndarray output (`scaled.to_numpy()`), so the output
representation type does NOT always equal the input representation type. -/
theorem z_score_scaler_representation_counterexample :
    isDataFrame (NumArray2D.df [[(1 : ℝ), 2], [3, 4]]) = true
      ∧ resultIsDataFrame
          (z_score_scaler (NumArray2D.df [[(1 : ℝ), 2], [3, 4]]) 1 false (1e-10))
          = some false :=
  ⟨rfl, rfl⟩

/-- C9 (amended): for every valid input, an ndarray input yields an ndarray
output regardless of `return_df`, and a DataFrame input yields a DataFrame
output when `return_df` is true (the default) and an ndarray output when
`return_df` is false. -/
theorem z_score_scaler_output_representation (d a : List (List ℝ)) (axis : ℕ)
    (eps : ℝ) (haxis : axis = 0 ∨ axis = 1) :
    z_score_scaler (NumArray2D.df d) axis true eps
        = .ok (.df (zscore_df d axis eps))
      ∧ z_score_scaler (NumArray2D.df d) axis false eps
          = .ok (.nd (zscore_df d axis eps))
      ∧ ∀ rdf : Bool, z_score_scaler (NumArray2D.nd a) axis rdf eps
          = .ok (.nd (zscore_nd a axis eps)) := by
  refine ⟨?_, ?_, fun rdf => ?_⟩ <;> simp only [z_score_scaler, if_pos haxis] <;> rfl

/-- Witness for C9 (amended) at `axis = 1`. -/
theorem z_score_scaler_output_representation_witness :
    ((1 : ℕ) = 0 ∨ (1 : ℕ) = 1)
      ∧ (z_score_scaler (NumArray2D.df [[(1 : ℝ), 2]]) 1 true (1e-10)
            = .ok (.df (zscore_df [[(1 : ℝ), 2]] 1 (1e-10)))
        ∧ z_score_scaler (NumArray2D.df [[(1 : ℝ), 2]]) 1 false (1e-10)
            = .ok (.nd (zscore_df [[(1 : ℝ), 2]] 1 (1e-10)))
        ∧ ∀ rdf : Bool, z_score_scaler (NumArray2D.nd [[(3 : ℝ)]]) 1 rdf (1e-10)
            = .ok (.nd (zscore_nd [[(3 : ℝ)]] 1 (1e-10)))) :=
  ⟨Or.inr rfl,
    z_score_scaler_output_representation [[(1 : ℝ), 2]] [[(3 : ℝ)]] 1 (1e-10) (Or.inr rfl)⟩

end Damavand
